import Mathlib

/-!
# Statement-level IR lowering (vyper `codegen/stmt.py`): a shallow embedding

This file embeds the statement-lowering stage of the compiler
(`src/vyper/codegen/stmt.py`, together with the helpers it uses from
`src/vyper/utils.py`) into Lean and proves the specification claims about it.

External collaborators (expression lowering, the ABI encoder, the scope
allocator, `keccak256`, the overlap analysis of `codegen/core.py`) are not part
of the source under verification; they appear either as parameters of the
embedded functions or as definitions whose doc comment starts
`Modelled from the spec:`.
-/

namespace VyperStmt

/-- The IR tree (`IRnode`): an operator tag with an ordered argument list,
an integer literal, or a bare symbol (`"pass"`, variable names). -/
inductive IR where
  | num (n : Int)
  | sym (s : String)
  | node (op : String) (args : List IR)
  deriving Repr

mutual

/-- Decidable equality on IR trees. -/
def IR.decEq : (a b : IR) → Decidable (a = b)
  | .num n, .num m =>
      if h : n = m then .isTrue (by subst h; rfl) else .isFalse (by simp [h])
  | .num _, .sym _ => .isFalse (by simp)
  | .num _, .node _ _ => .isFalse (by simp)
  | .sym _, .num _ => .isFalse (by simp)
  | .sym s, .sym t =>
      if h : s = t then .isTrue (by subst h; rfl) else .isFalse (by simp [h])
  | .sym _, .node _ _ => .isFalse (by simp)
  | .node _ _, .num _ => .isFalse (by simp)
  | .node _ _, .sym _ => .isFalse (by simp)
  | .node o as, .node p bs =>
      if h : o = p then
        match IR.decEqList as bs with
        | .isTrue h2 => .isTrue (by subst h; subst h2; rfl)
        | .isFalse h2 => .isFalse (by simp [h2])
      else .isFalse (by simp [h])

/-- Decidable equality on lists of IR trees. -/
def IR.decEqList : (as bs : List IR) → Decidable (as = bs)
  | [], [] => .isTrue rfl
  | [], _ :: _ => .isFalse (by simp)
  | _ :: _, [] => .isFalse (by simp)
  | a :: as, b :: bs =>
      match IR.decEq a b, IR.decEqList as bs with
      | .isTrue h1, .isTrue h2 => .isTrue (by subst h1; subst h2; rfl)
      | .isFalse h1, _ => .isFalse (by simp [h1])
      | _, .isFalse h2 => .isFalse (by simp [h2])

end

instance : DecidableEq IR := IR.decEq

/-- Faults raised during lowering (`vyper/exceptions.py`): `CodegenPanic` and
`TypeCheckFailure` are internal invariant faults, `StructureException` is the
user-facing unsupported-construct fault. -/
inductive Fault where
  | codegenPanic (msg : String)
  | typeCheckFailure (msg : String)
  | structureException (msg : String)
  deriving Repr, DecidableEq

/-- The fragment of the semantic type interface that statement lowering
consults: `_is_prim_word` (single-word primitive), `memory_bytes_required`,
the static array capacity `count`, whether the type is a dynamic array
(`DArrayT`), and signedness of integer types. -/
structure VyType where
  is_prim_word : Bool := false
  memory_bytes_required : Nat := 32
  count : Nat := 0
  is_darray : Bool := false
  is_signed : Bool := false
  deriving Repr, DecidableEq

/-- A source-level variable as seen through the analysis interface of an
`IRnode`: an identity, its type, and whether it is a state (storage-level)
variable (`is_state_variable()`). -/
structure VarInfo where
  uid : Nat
  typ : VyType
  is_state : Bool
  deriving Repr, DecidableEq

/-- The result of lowering one expression, as handed over by the external
expression-lowering collaborator: the IR value/location, its type, and the
analysis attributes statement lowering reads off it
(`referenced_variables`, `variable_writes`, `contains_writeable_call`,
`is_pointer`). -/
structure ExprResult where
  ir : IR
  typ : VyType
  referenced_variables : List VarInfo := []
  variable_writes : List VarInfo := []
  contains_writeable_call : Bool := false
  is_pointer : Bool := true
  deriving Repr, DecidableEq

/-- The constant-evaluation flag (`codegen/context.py: Constancy`). -/
inductive Constancy where
  | mutableCtx
  | constant
  deriving Repr, DecidableEq

/-- The slice of the mutable compile-time `Context` that statement lowering
touches: the set of active loop-variable names (`forvars`), the
constant-evaluation flag (`constancy`), a fresh-name counter
(`fresh_varname`), and the internal-memory allocator counter
(`new_internal_variable`). -/
structure Context where
  forvars : List String := []
  constancy : Constancy := .mutableCtx
  fresh_counter : Nat := 0
  alloc_counter : Nat := 0
  deriving Repr, DecidableEq

/-- `IRnode.int_value()`: the compile-time integer value of a literal node
(the source asserts the node is an integer literal; here the non-literal case
is `none` and the caller raises the corresponding fault). -/
def int_value : IR → Option Int
  | .num n => some n
  | _ => none

/-- `IRnode.is_complex_ir`: an atom (integer literal or bare symbol) is not
complex; any operator node is. Caching binds only complex expressions. -/
def is_complex_ir : IR → Bool
  | .num _ => false
  | .sym _ => false
  | .node _ _ => true

/-- `cache_when_complex(name)`: the value handed to the body — the bound
symbol if the expression is complex, the expression itself otherwise. -/
def cachedVal (name : String) (e : IR) : IR :=
  if is_complex_ir e then IR.sym name else e

/-- `b.resolve(x)` for `b = e.cache_when_complex(name)`: wraps `x` in the
`with`-binding when `e` is complex, otherwise returns `x` unchanged. -/
def resolveCache (name : String) (e : IR) (x : IR) : IR :=
  if is_complex_ir e then IR.node "with" [IR.sym name, e, x] else x

/-- Modelled from the spec: `make_setter` (external `codegen/core.py`
collaborator) emits the IR that copies the right value into the left
location; opaque copy node here. -/
def make_setter (dst src : IR) : IR :=
  IR.node "setter" [dst, src]

/-- Modelled from the spec: `add_ofst(ptr, n)` (external `codegen/core.py`)
forms a pointer `n` bytes past `ptr`. -/
def add_ofst (p : IR) (n : Int) : IR :=
  IR.node "add" [p, IR.num n]

/-- Modelled from the spec: `get_type_for_exact_size(n)` (external) returns a
type whose memory footprint is exactly `n` bytes. -/
def get_type_for_exact_size (n : Nat) : VyType :=
  { is_prim_word := false, memory_bytes_required := n }

/-- `context.new_internal_variable(typ)`: requests a fresh anonymous
temporary buffer from the allocator; the returned pointer is tagged with a
fresh allocation identity and the byte size of the requested type. -/
def new_internal_variable (ctx : Context) (t : VyType) : IR × Context :=
  (IR.node "palloca" [IR.num ctx.alloc_counter, IR.num t.memory_bytes_required],
   { ctx with alloc_counter := ctx.alloc_counter + 1 })

/-- `context.new_variable(name, typ)`: declares a user-visible named variable
in the current scope and returns a pointer to its memory slot (the allocation
itself is the external scope allocator's business). -/
def new_variable (ctx : Context) (name : String) (_t : VyType) : IR × Context :=
  (IR.node "named_var" [IR.sym name], ctx)

/-- `context.fresh_varname(name)`: a freshly generated, user-unreachable name
built from the counter. -/
def fresh_varname (ctx : Context) (name : String) : String × Context :=
  (name ++ toString ctx.fresh_counter, { ctx with fresh_counter := ctx.fresh_counter + 1 })

/-- The assignment-target syntax shapes `_get_target` distinguishes:
a bare name, a tuple target, or any other pointer expression
(subscript, attribute, ...). -/
inductive TargetAst where
  | name (id : String)
  | tupleT (tag : Nat)
  | other (tag : Nat)
  deriving Repr, DecidableEq

/-- The external expression-lowering collaborator as consumed by assignment
lowering: `Expr.parse_pointer_expr` for a single target,
`Expr(...).ir_node` for a tuple target (the node plus its item list), the
`writeable` check of `codegen/core.py`, and the could-overlap oracle used by
`potential_overlap`. -/
structure ExprLowering where
  pointer_expr : TargetAst → Context → Except Fault ExprResult
  tuple_expr : TargetAst → Context → Except Fault (ExprResult × List ExprResult)
  writeable : Context → ExprResult → Bool
  could_overlap : ExprResult → ExprResult → Bool

/-- `Stmt._get_target`: reject a bare name that is an active loop variable;
lower a tuple target and require every item writeable; otherwise lower a
pointer expression and require it writeable. Failures are the
internal `TypeCheckFailure` invariant fault. -/
def _get_target (E : ExprLowering) (ctx : Context) (target : TargetAst) :
    Except Fault ExprResult :=
  match target with
  | .name id =>
      if id ∈ ctx.forvars then
        .error (.typeCheckFailure "Failed constancy check")
      else do
        let t ← E.pointer_expr target ctx
        if E.writeable ctx t then pure t
        else .error (.typeCheckFailure "Failed constancy check")
  | .tupleT _ => do
      let (t, items) ← E.tuple_expr target ctx
      if items.any (fun item => !E.writeable ctx item) then
        .error (.typeCheckFailure "Failed constancy check")
      else pure t
  | .other _ => do
      let t ← E.pointer_expr target ctx
      if E.writeable ctx t then pure t
      else .error (.typeCheckFailure "Failed constancy check")

/-- Modelled from the spec: `potential_overlap` (external `codegen/core.py`)
holds when the left- and right-hand subtrees could reference overlapping
storage and the type is complex, i.e. spans multiple words; the
could-overlap analysis itself is the external oracle. -/
def potential_overlap (could_overlap : ExprResult → ExprResult → Bool)
    (dst src : ExprResult) : Bool :=
  !dst.typ.is_prim_word && could_overlap dst src

/-- `Stmt.parse_Assign`: lower the right side (handed in as `src`), resolve
the target; when `potential_overlap` holds, stage the value through a fresh
temporary buffer, otherwise copy directly. -/
def parse_Assign (E : ExprLowering) (ctx : Context) (src : ExprResult)
    (target : TargetAst) : Except Fault (IR × Context) := do
  let dst ← _get_target E ctx target
  if potential_overlap E.could_overlap dst src then
    let (tmp, ctx1) := new_internal_variable ctx src.typ
    pure (IR.node "seq" [make_setter tmp src.ir, make_setter dst.ir tmp], ctx1)
  else
    pure (IR.node "seq" [make_setter dst.ir src.ir], ctx)

/-- Modelled from the spec: `LOAD` (external `codegen/core.py`), the
location-dependent single-word read through a pointer. -/
def LOAD (ptr : IR) : IR := IR.node "load" [ptr]

/-- Modelled from the spec: `STORE` (external `codegen/core.py`), the
location-dependent single-word write through a pointer. -/
def STORE (ptr val : IR) : IR := IR.node "store" [ptr, val]

/-- Modelled from the spec: `Expr.handle_binop` (external expression
collaborator) builds the binary-operation IR for the operator tag. -/
def handle_binop (op : String) (left right : IR) : IR :=
  IR.node op [left, right]

/-- `Stmt.parse_AugAssign`: resolve the target, require a primitive
single-word target type, reject (internal `CodegenPanic`) when a
non-single-word variable referenced by the target is written by the right
side or is a state variable while the right side contains a state-mutating
call; otherwise cache the target address and emit load / binop / store. -/
def parse_AugAssign (E : ExprLowering) (ctx : Context) (op : String)
    (target_ast : TargetAst) (right : ExprResult) : Except Fault IR := do
  let target ← _get_target E ctx target_ast
  if !target.typ.is_prim_word then
    .error (.typeCheckFailure "unreachable")
  else if target.referenced_variables.any (fun var =>
      !var.typ.is_prim_word &&
        (right.variable_writes.contains var ||
          (var.is_state && right.contains_writeable_call))) then
    .error (.codegenPanic "unreachable")
  else
    let t := cachedVal "_loc" target.ir
    let left := LOAD t
    let new_val := handle_binop op left right.ir
    pure (resolveCache "_loc" target.ir (STORE t new_val))

/-- The message operand of `assert`/`raise` as syntax: a bare name (possibly
the `UNREACHABLE` sentinel) or any other expression. -/
inductive MsgAst where
  | name (id : String)
  | other (tag : Nat)
  deriving Repr, DecidableEq

/-- The sentinel test of `_assert_reason`:
`isinstance(msg, vy_ast.Name) and msg.id == "UNREACHABLE"`. -/
def is_unreachable_sentinel : MsgAst → Bool
  | .name id => id == "UNREACHABLE"
  | .other _ => false

/-- `utils.method_id_int(sig)` (from `src/vyper/utils.py`): the first four
bytes of the keccak-256 hash of the signature, as an integer; the hash
itself is the external `keccak256` collaborator `keccak4`. -/
def method_id_int (keccak4 : String → Nat) (sig : String) : Nat :=
  keccak4 sig

/-- Modelled from the spec: `abi_encode(dst, val, context, bufsz,
returns_len=True)` (external ABI-encoding collaborator) emits IR performing
the encoding into `dst` within the byte budget `bufsz` and yielding the
encoded length as its value. -/
def abi_encode (dst : IR) (val : ExprResult) (bufsz : Nat) : IR :=
  IR.node "abi_encode" [dst, val.ir, IR.num bufsz]

/-- The external collaborators consumed by the reason encoder: the
expression lowering of the message (which reads and mutates the Context and
may fault; on fault the mutated Context is still observable, matching the
in-place mutation of the source), `wrap_value_for_external_return`, and the
keccak-256 hash behind `method_id_int`. -/
structure ReasonLowering where
  lower_msg : MsgAst → Context → (Except Fault ExprResult) × Context
  wrap_value_for_external_return : ExprResult → ExprResult
  keccak4 : String → Nat

/-- `Stmt._assert_reason(test_expr, msg)`: the `UNREACHABLE` sentinel lowers
to `invalid` (raise) or `assert_unreachable` (assert) with no ABI encoding;
any other message is lowered with the constancy flag forced to `Constant`
and restored on every exit path, then ABI-encoded as `Error(string)` into a
fresh buffer, and the statement reverts with selector plus encoded payload,
guarded by `iszero test` for assert and unconditional for raise. -/
def _assert_reason (R : ReasonLowering) (ctx : Context) (test_expr : Option IR)
    (msg : MsgAst) : (Except Fault IR) × Context :=
  if is_unreachable_sentinel msg then
    match test_expr with
    | none => (.ok (IR.node "invalid" []), ctx)
    | some t => (.ok (IR.node "assert_unreachable" [t]), ctx)
  else
    -- set constant so that revert reason str is well behaved, restoring the
    -- prior flag on both the success and the fault path (try/finally)
    let tmp := ctx.constancy
    let (res, ctx1) := R.lower_msg msg { ctx with constancy := Constancy.constant }
    let ctx2 := { ctx1 with constancy := tmp }
    match res with
    | .error f => (.error f, ctx2)
    | .ok msg_er =>
      let msg_er := R.wrap_value_for_external_return msg_er
      let bufsz := 64 + msg_er.typ.memory_bytes_required
      let (buf, ctx3) := new_internal_variable ctx2 (get_type_for_exact_size bufsz)
      let mid := method_id_int R.keccak4 "Error(string)"
      -- abi encode the message to `buf+32`, then write the selector to `buf`
      let payload_buf := add_ofst buf 32
      let bufsz2 := bufsz - 32
      let encoded_length := abi_encode payload_buf msg_er bufsz2
      let enc := cachedVal "encoded_len" encoded_length
      let revert_seq := resolveCache "encoded_len" encoded_length
        (IR.node "seq"
          [IR.node "mstore" [buf, IR.num mid],
           IR.node "revert" [add_ofst buf 28, IR.node "add" [IR.num 4, enc]]])
      match test_expr with
      | none => (.ok revert_seq, ctx3)
      | some t => (.ok (IR.node "if" [IR.node "iszero" [t], revert_seq]), ctx3)

/-- `Stmt.parse_Assert`: with a message, delegate to the reason encoder with
the condition as guard; without, a bare assertion primitive. -/
def parse_Assert (R : ReasonLowering) (ctx : Context) (test_expr : IR)
    (msg : Option MsgAst) : (Except Fault IR) × Context :=
  match msg with
  | some m => _assert_reason R ctx (some test_expr) m
  | none => (.ok (IR.node "assert" [test_expr]), ctx)

/-- `Stmt.parse_Raise`: with an expression, delegate to the reason encoder
unconditionally; without, a zero-length revert. -/
def parse_Raise (R : ReasonLowering) (ctx : Context) (exc : Option MsgAst) :
    (Except Fault IR) × Context :=
  match exc with
  | some m => _assert_reason R ctx none m
  | none => (.ok (IR.node "revert" [IR.num 0, IR.num 0]), ctx)

/-- Modelled from the spec: `clamp_le(arg, hi, signed)` (external
`codegen/core.py`) emits a direction-aware check that `arg` does not exceed
`hi`, evaluating to `arg` when the check passes. -/
def clamp_le (arg hi : IR) (signed : Bool) : IR :=
  IR.node (if signed then "sclamp_le" else "uclamp_le") [arg, hi]

/-- `Stmt._parse_For_range`: the two endpoints (one argument means start 0),
with an explicit `bound` the rounds are `end - clamp_le(start, end)` at run
time and the declared bound is the compile-time value of `bound`; without,
both endpoints must be literals and rounds = declared bound = `end - start`
computed at compile time. A declared bound below 1 is an internal invariant
fault. The loop body (lowered under the registered loop variable) is handed
in already lowered. -/
def _parse_For_range (ctx : Context) (target_type : VyType) (args : List IR)
    (bound : Option IR) (varname : String) (body : IR) :
    Except Fault (IR × Context) := do
  let (start, endE) ←
    match args with
    | [e] => pure (IR.num 0, e)
    | [s, e] => pure (s, e)
    | _ => Except.error (.typeCheckFailure "unreachable")
  let startC := cachedVal "start" start
  let (rounds, rounds_bound) ←
    match bound with
    | some b =>
        -- note: the check for rounds <= rounds_bound happens in asm
        -- generation for `repeat`.
        let endC := cachedVal "end" endE
        let clamped_start := clamp_le startC endC target_type.is_signed
        let rounds := resolveCache "end" endE (IR.node "sub" [endC, clamped_start])
        match int_value b with
        | some k => pure (rounds, k)
        | none => Except.error (.codegenPanic "int_value of non-literal bound")
    | none =>
        match int_value endE, int_value startC with
        | some e, some s => pure (IR.num (e - s), e - s)
        | _, _ => Except.error (.codegenPanic "int_value of non-literal endpoint")
  if rounds_bound < 1 then
    Except.error (.typeCheckFailure "unreachable: unchecked 0 bound")
  else
    let (ixname, ctx1) := fresh_varname ctx "range_ix"
    let i := IR.sym ixname
    let (iptr, ctx2) := new_variable ctx1 varname target_type
    -- store the current value of i so it is accessible to userland
    let loop_body := IR.node "seq" [IR.node "mstore" [iptr, i], body]
    let loop := IR.node "repeat" [i, startC, rounds, IR.num rounds_bound, loop_body]
    pure (resolveCache "start" start loop, ctx2)

/-- Modelled from the spec: `get_element_ptr(parent, ix,
array_bounds_check=False)` (external `codegen/core.py`) computes the address
of element `ix` from the buffer base. -/
def get_element_ptr (parent ix : IR) : IR :=
  IR.node "element_ptr" [parent, ix]

/-- Modelled from the spec: `get_dyn_array_count(arr)` (external
`codegen/core.py`) reads the stored live length of a dynamic array. -/
def get_dyn_array_count (arr : IR) : IR :=
  IR.node "dyn_array_count" [arr]

/-- `Stmt._parse_For_list`: a non-addressable iterable (a literal) is first
copied into a fresh temporary buffer; each iteration copies the element at
the index into the loop variable and runs the body; the run-time round count
is the stored live length for a dynamic array and the static capacity
otherwise, while the declared repeat bound is always the static capacity. -/
def _parse_For_list (ctx : Context) (target_type : VyType)
    (iter_list : ExprResult) (varname : String) (body : IR) : IR × Context :=
  let (loop_var, ctx1) := new_variable ctx varname target_type
  let (ixname, ctx2) := fresh_varname ctx1 "for_list_ix"
  let i := IR.sym ixname
  -- if it's a list literal, force it to memory first
  let (pre, iterIR, ctx3) :=
    if !iter_list.is_pointer then
      let (tmp, c) := new_internal_variable ctx2 iter_list.typ
      ([make_setter tmp iter_list.ir], tmp, c)
    else ([], iter_list.ir, ctx2)
  let iterC := cachedVal "list_iter" iterIR
  let e := get_element_ptr iterC i
  let body2 := IR.node "seq" [make_setter loop_var e, body]
  let repeat_bound := iter_list.typ.count
  let array_len :=
    if iter_list.typ.is_darray then get_dyn_array_count iterC
    else IR.num repeat_bound
  let ret := IR.node "seq"
    (pre ++ [IR.node "repeat" [i, IR.num 0, array_len, IR.num repeat_bound, body2]])
  (resolveCache "list_iter" iterIR ret, ctx3)

/-- The statement shapes the termination checker distinguishes: a terminus
statement (return or unconditional revert-class, `is_terminus = True`
upstream), a plain non-terminus statement, or an `if` with its two branch
bodies (`orelse` empty when the `else` is absent). -/
inductive VyStmt where
  | ret
  | plain
  | ifStmt (body orelse : List VyStmt)
  deriving Repr

/-- The upstream `is_terminus` flag on a statement node. -/
def is_terminus : VyStmt → Bool
  | .ret => true
  | .plain => false
  | .ifStmt _ _ => false

mutual

/-- `_is_terminated(code)`: whether the final statement of the sequence
makes every path exit. -/
def _is_terminated : List VyStmt → Bool
  | [] => false
  | [s] => last_stmt_terminated s
  | _ :: s :: rest => _is_terminated (s :: rest)

/-- The per-statement part of `_is_terminated`: a terminus statement, or an
`if` with a present `else` whose two branches are both terminated. -/
def last_stmt_terminated : VyStmt → Bool
  | .ret => true
  | .plain => false
  | .ifStmt body orelse =>
      !orelse.isEmpty && _is_terminated body && _is_terminated orelse

end

/-- `parse_body(code, context, ensure_terminated)`: lower each statement in
order, append the lowering of one implicit bare `Return` exactly when
termination must be ensured, the function declares no return value, and the
sequence is not already terminated; then suffix the zerovalent `pass`. The
per-statement dispatcher `parse_stmt` is abstract here. -/
def parse_body (parse_stmt : VyStmt → IR) (return_type_is_none : Bool)
    (code : List VyStmt) (ensure_terminated : Bool) : IR :=
  let stmts := code.map parse_stmt
  let stmts :=
    if ensure_terminated && return_type_is_none && !(_is_terminated code) then
      stmts ++ [parse_stmt .ret]
    else stmts
  IR.node "seq" (stmts ++ [IR.sym "pass"])

/-- Environment lookup for the IR evaluator. -/
def lookupEnv (env : List (String × Int)) (s : String) : Option Int :=
  match env.find? (fun p => p.1 == s) with
  | some p => some p.2
  | none => none

/-- A value evaluator for the arithmetic fragment of the IR that the range
loop emits: literals, bound symbols, subtraction, the direction-aware clamp
(which faults at run time unless its argument does not exceed the limit and
otherwise passes the argument through), and `with`-bindings. `none` is a
run-time fault or an unmodelled operator. -/
def evalIR (env : List (String × Int)) : IR → Option Int
  | .num n => some n
  | .sym s => lookupEnv env s
  | .node "sub" [a, b] => do
      let x ← evalIR env a
      let y ← evalIR env b
      pure (x - y)
  | .node "sclamp_le" [a, b] => do
      let x ← evalIR env a
      let y ← evalIR env b
      if x ≤ y then pure x else none
  | .node "uclamp_le" [a, b] => do
      let x ← evalIR env a
      let y ← evalIR env b
      if x ≤ y then pure x else none
  | .node "with" [.sym n, v, body] => do
      let x ← evalIR env v
      evalIR ((n, x) :: env) body
  | .node _ _ => none

/-- Strip the outer `with`-bindings produced by `cache_when_complex`
resolution, exposing the IR node beneath. -/
def strip_withs : IR → IR
  | .node "with" [_, _, body] => strip_withs body
  | e => e

/-- The argument list of the `repeat` primitive beneath the outer cache
bindings, if the IR is such a loop. -/
def repeat_args (x : IR) : Option (List IR) :=
  match strip_withs x with
  | .node "repeat" args => some args
  | _ => none

/-- The argument list of the `repeat` primitive sitting last in the `seq`
beneath the outer cache bindings, if the IR has that shape. -/
def seq_last_repeat (x : IR) : Option (List IR) :=
  match strip_withs x with
  | .node "seq" xs =>
      match xs.getLast? with
      | some (.node "repeat" args) => some args
      | _ => none
  | _ => none

mutual

/-- Whether an operator tag occurs anywhere in an IR tree. -/
def contains_op (op : String) : IR → Bool
  | .num _ => false
  | .sym _ => false
  | .node o args => o == op || contains_op_list op args

/-- Whether an operator tag occurs anywhere in a list of IR trees. -/
def contains_op_list (op : String) : List IR → Bool
  | [] => false
  | a :: as => contains_op op a || contains_op_list op as

end

/-! ## Claim C10: an active loop variable is never a writable assignment target -/

/-- Claim C10: for every assignment or augmented assignment whose target is a
bare name currently registered as an active loop variable, resolving the
target fails with the internal invariant fault (`TypeCheckFailure`) before
any IR is produced, and both statement lowerings propagate that fault. -/
theorem loop_var_target_rejected (E : ExprLowering) (ctx : Context)
    (id : String) (op : String) (src right : ExprResult)
    (h : id ∈ ctx.forvars) :
    _get_target E ctx (.name id) = .error (.typeCheckFailure "Failed constancy check")
    ∧ parse_Assign E ctx src (.name id) =
        .error (.typeCheckFailure "Failed constancy check")
    ∧ parse_AugAssign E ctx op (.name id) right =
        .error (.typeCheckFailure "Failed constancy check") := by
  have hg : _get_target E ctx (.name id) =
      .error (.typeCheckFailure "Failed constancy check") := by
    simp [_get_target, h]
  refine ⟨hg, ?_, ?_⟩
  · simp [parse_Assign, hg, bind, Except.bind]
  · simp [parse_AugAssign, hg, bind, Except.bind]

/-- Concrete instantiation of `loop_var_target_rejected`: lowering `i = ...`
and `i += ...` inside `for i in ...` faults. -/
theorem loop_var_target_rejected_witness :
    let E : ExprLowering :=
      { pointer_expr := fun _ _ => .error (.structureException "unused"),
        tuple_expr := fun _ _ => .error (.structureException "unused"),
        writeable := fun _ _ => true,
        could_overlap := fun _ _ => false }
    let ctx : Context := { forvars := ["i"] }
    let er : ExprResult := { ir := IR.num 1, typ := { is_prim_word := true } }
    parse_Assign E ctx er (.name "i") =
      .error (.typeCheckFailure "Failed constancy check") := by
  intro E ctx er
  exact (loop_var_target_rejected E ctx "i" "add" er er (by simp)).2.1

/-! ## Claim C8: the UNREACHABLE sentinel bypasses ABI encoding -/

/-- Claim C8: `raise UNREACHABLE` lowers to the unconditional trap primitive
`invalid` and `assert cond, UNREACHABLE` lowers to `assert_unreachable` on
the condition, for every choice of the external collaborators (so the ABI
encoder is never consulted), and the produced IR contains no `abi_encode`
node. -/
theorem unreachable_sentinel_bypasses_abi (R : ReasonLowering) (ctx : Context)
    (t : IR) :
    parse_Raise R ctx (some (.name "UNREACHABLE")) =
      (.ok (IR.node "invalid" []), ctx)
    ∧ parse_Assert R ctx t (some (.name "UNREACHABLE")) =
        (.ok (IR.node "assert_unreachable" [t]), ctx)
    ∧ contains_op "abi_encode" (IR.node "invalid" []) = false
    ∧ (contains_op "abi_encode" t = false →
        contains_op "abi_encode" (IR.node "assert_unreachable" [t]) = false) := by
  refine ⟨?_, ?_, ?_, ?_⟩
  · simp [parse_Raise, _assert_reason, is_unreachable_sentinel]
  · simp [parse_Assert, _assert_reason, is_unreachable_sentinel]
  · simp [contains_op, contains_op_list]
  · intro h
    simp [contains_op, contains_op_list, h]

/-- Concrete instantiation of `unreachable_sentinel_bypasses_abi` at a bare
condition symbol. -/
theorem unreachable_sentinel_bypasses_abi_witness :
    parse_Assert
      { lower_msg := fun _ c => (.error (.structureException "unused"), c),
        wrap_value_for_external_return := id,
        keccak4 := fun _ => 0 } {} (IR.sym "cond") (some (.name "UNREACHABLE")) =
      (.ok (IR.node "assert_unreachable" [IR.sym "cond"]), {})
    ∧ contains_op "abi_encode" (IR.node "assert_unreachable" [IR.sym "cond"]) = false := by
  exact ⟨(unreachable_sentinel_bypasses_abi _ {} (IR.sym "cond")).2.1,
         (unreachable_sentinel_bypasses_abi
            { lower_msg := fun _ c => (.error (.structureException "unused"), c),
              wrap_value_for_external_return := id,
              keccak4 := fun _ => 0 } {} (IR.sym "cond")).2.2.2 (by decide)⟩

/-! ## Claim C2: plain assignment stages through a temporary iff overlap is possible -/

/-- Claim C2: once the target resolves, a plain assignment with possible
lhs/rhs overlap on a multi-word type copies the right value into a fresh
temporary buffer (a new allocation identity from the allocator counter) and
then from the temporary into the target; when overlap is impossible, and in
particular whenever the assigned type is a single-word primitive, the value
is copied directly with no staging buffer. -/
theorem assign_overlap_staging (E : ExprLowering) (ctx : Context)
    (src dst : ExprResult) (tast : TargetAst)
    (hres : _get_target E ctx tast = .ok dst) :
    (potential_overlap E.could_overlap dst src = true →
      parse_Assign E ctx src tast = .ok
        (IR.node "seq"
          [make_setter
              (IR.node "palloca"
                [IR.num ctx.alloc_counter, IR.num src.typ.memory_bytes_required])
              src.ir,
           make_setter dst.ir
              (IR.node "palloca"
                [IR.num ctx.alloc_counter, IR.num src.typ.memory_bytes_required])],
         { ctx with alloc_counter := ctx.alloc_counter + 1 }))
    ∧ (potential_overlap E.could_overlap dst src = false →
        parse_Assign E ctx src tast =
          .ok (IR.node "seq" [make_setter dst.ir src.ir], ctx))
    ∧ (dst.typ.is_prim_word = true →
        parse_Assign E ctx src tast =
          .ok (IR.node "seq" [make_setter dst.ir src.ir], ctx)) := by
  refine ⟨?_, ?_, ?_⟩
  · intro hov
    simp [parse_Assign, hres, hov, new_internal_variable, bind, Except.bind, pure, Except.pure]
  · intro hov
    simp [parse_Assign, hres, hov, bind, Except.bind, pure, Except.pure]
  · intro hprim
    simp [parse_Assign, hres, potential_overlap, hprim, bind, Except.bind, pure, Except.pure]

/-- Concrete instantiation of `assign_overlap_staging`: an overlapping
multi-word assignment stages through the temporary; a scalar assignment
copies directly. -/
theorem assign_overlap_staging_witness :
    let dstT : ExprResult := { ir := IR.sym "a_i", typ := { count := 4 } }
    let srcT : ExprResult := { ir := IR.sym "a_j", typ := { count := 4 } }
    let E : ExprLowering :=
      { pointer_expr := fun _ _ => .ok dstT,
        tuple_expr := fun _ _ => .error (.structureException "unused"),
        writeable := fun _ _ => true,
        could_overlap := fun _ _ => true }
    parse_Assign E {} srcT (.other 0) = .ok
        (IR.node "seq"
          [make_setter (IR.node "palloca" [IR.num 0, IR.num 32]) (IR.sym "a_j"),
           make_setter (IR.sym "a_i") (IR.node "palloca" [IR.num 0, IR.num 32])],
         { alloc_counter := 1 }) := by
  intro dstT srcT E
  exact (assign_overlap_staging E {} srcT dstT (.other 0) (by rfl)).1 (by rfl)

/-! ## Claim C1: the compound-assignment aliasing guard -/

/-- Claim C1 (amended): once the target resolves to a primitive single-word
location, augmented assignment fails with the internal invariant fault
exactly when some non-single-word variable referenced by the target address
is written to by evaluating the right-hand side, or is a state variable
while the right-hand side may perform a state-mutating external call;
when no referenced variable triggers the guard, lowering succeeds and
produces a load, the binary operation, and a store back to the same
(cached) target address. -/
theorem augassign_aliasing_guard (E : ExprLowering) (ctx : Context)
    (op : String) (tast : TargetAst) (target right : ExprResult)
    (hres : _get_target E ctx tast = .ok target)
    (hprim : target.typ.is_prim_word = true) :
    (parse_AugAssign E ctx op tast right = .error (.codegenPanic "unreachable")
      ↔ ∃ var ∈ target.referenced_variables,
          var.typ.is_prim_word = false ∧
            (var ∈ right.variable_writes ∨
              (var.is_state = true ∧ right.contains_writeable_call = true)))
    ∧ ((∀ var ∈ target.referenced_variables,
          var.typ.is_prim_word = false →
            var ∉ right.variable_writes ∧
              ¬(var.is_state = true ∧ right.contains_writeable_call = true)) →
        parse_AugAssign E ctx op tast right =
          .ok (resolveCache "_loc" target.ir
                (STORE (cachedVal "_loc" target.ir)
                  (handle_binop op (LOAD (cachedVal "_loc" target.ir)) right.ir)))) := by
  have key : parse_AugAssign E ctx op tast right =
      if target.referenced_variables.any (fun var =>
          !var.typ.is_prim_word &&
            (right.variable_writes.contains var ||
              (var.is_state && right.contains_writeable_call))) then
        .error (.codegenPanic "unreachable")
      else
        .ok (resolveCache "_loc" target.ir
              (STORE (cachedVal "_loc" target.ir)
                (handle_binop op (LOAD (cachedVal "_loc" target.ir)) right.ir))) := by
    rw [parse_AugAssign, hres]
    simp [bind, Except.bind, hprim, pure, Except.pure]
  have hiff : (target.referenced_variables.any (fun var =>
      !var.typ.is_prim_word &&
        (right.variable_writes.contains var ||
          (var.is_state && right.contains_writeable_call))) = true)
      ↔ ∃ var ∈ target.referenced_variables,
          var.typ.is_prim_word = false ∧
            (var ∈ right.variable_writes ∨
              (var.is_state = true ∧ right.contains_writeable_call = true)) := by
    rw [List.any_eq_true]
    constructor
    · rintro ⟨v, hv, hp⟩
      simp only [Bool.and_eq_true, Bool.or_eq_true, Bool.not_eq_true'] at hp
      exact ⟨v, hv, hp.1, hp.2.imp (fun h1 => by simpa using h1) (fun h2 => h2)⟩
    · rintro ⟨v, hv, hp, hd⟩
      refine ⟨v, hv, ?_⟩
      simp only [Bool.and_eq_true, Bool.or_eq_true, Bool.not_eq_true']
      exact ⟨hp, hd.imp (fun h1 => by simpa using h1) (fun h2 => h2)⟩
  refine ⟨?_, ?_⟩
  · rw [key]
    by_cases hc : target.referenced_variables.any (fun var =>
        !var.typ.is_prim_word &&
          (right.variable_writes.contains var ||
            (var.is_state && right.contains_writeable_call))) = true
    · rw [if_pos hc]
      exact ⟨fun _ => hiff.mp hc, fun _ => rfl⟩
    · rw [if_neg hc]
      constructor
      · intro h; exact absurd h (by simp)
      · intro hex; exact absurd (hiff.mpr hex) hc
  · intro hall
    have hc : ¬ target.referenced_variables.any (fun var =>
        !var.typ.is_prim_word &&
          (right.variable_writes.contains var ||
            (var.is_state && right.contains_writeable_call))) = true := by
      intro hctrue
      obtain ⟨v, hv, hp, hd⟩ := hiff.mp hctrue
      rcases hall v hv hp with ⟨hw, hs⟩
      rcases hd with h1 | h2
      · exact hw h1
      · exact hs h2
    rw [key, if_neg hc]

/-- Concrete instantiation of `augassign_aliasing_guard`: a target whose only
referenced variable is written by the right-hand side faults, one with no
triggering variable succeeds. -/
theorem augassign_aliasing_guard_witness :
    let v : VarInfo := { uid := 7, typ := { is_prim_word := false }, is_state := false }
    let tgt : ExprResult :=
      { ir := IR.sym "x_slot", typ := { is_prim_word := true },
        referenced_variables := [v] }
    let rhs : ExprResult :=
      { ir := IR.num 3, typ := { is_prim_word := true }, variable_writes := [v] }
    let E : ExprLowering :=
      { pointer_expr := fun _ _ => .ok tgt,
        tuple_expr := fun _ _ => .error (.structureException "unused"),
        writeable := fun _ _ => true,
        could_overlap := fun _ _ => false }
    parse_AugAssign E {} "add" (.other 0) rhs = .error (.codegenPanic "unreachable") := by
  intro v tgt rhs E
  exact (augassign_aliasing_guard E {} "add" (.other 0) tgt rhs rfl rfl).1.mpr
    ⟨v, by simp, rfl, Or.inl (by simp)⟩

/-- The variable referenced by the counterexample target of claim C1: a
single-word state variable. -/
def caVar : VarInfo := { uid := 0, typ := { is_prim_word := true }, is_state := true }

/-- The counterexample target of claim C1: a single-word state location
referencing `caVar`. -/
def caTarget : ExprResult :=
  { ir := IR.sym "slot0", typ := { is_prim_word := true },
    referenced_variables := [caVar] }

/-- The counterexample right-hand side of claim C1: a value whose evaluation
may perform a state-mutating external call but writes no variable. -/
def caRight : ExprResult :=
  { ir := IR.num 1, typ := { is_prim_word := true },
    contains_writeable_call := true }

/-- The expression-lowering collaborator for the claim C1 counterexample. -/
def caE : ExprLowering :=
  { pointer_expr := fun _ _ => .ok caTarget,
    tuple_expr := fun _ _ => .error (.structureException "unused"),
    writeable := fun _ _ => true,
    could_overlap := fun _ _ => false }

/-- Claim C1, as stated, is false here: the target references a state
variable (`caVar`) and the right-hand side may perform a state-mutating
external call, so the claim demands an internal invariant fault — yet
lowering succeeds, because the guard in the code skips referenced variables
whose own type is a single word. -/
theorem augassign_aliasing_claim_counterexample :
    (caTarget.referenced_variables.any (fun v => v.is_state) = true
      ∧ caRight.contains_writeable_call = true)
    ∧ parse_AugAssign caE {} "add" (.other 0) caRight =
        .ok (STORE (IR.sym "slot0")
              (handle_binop "add" (LOAD (IR.sym "slot0")) (IR.num 1))) := by
  refine ⟨⟨by decide, by decide⟩, ?_⟩
  rfl

/-! ## Claim C3: structure of the revert-with-reason sequence -/

/-- Claim C3: for a non-sentinel message that lowers successfully, the
sequence requests a temporary buffer sized `64 + mbr` bytes — the ABI byte
budget `32 + mbr` for the wrapped message plus the 32-byte selector-slot
header —, ABI-encodes the message starting 32 bytes into the buffer, writes
the 4-byte selector of the canonical `Error(string)` signature at the buffer
start, and reverts with a region starting 4 bytes before the payload
(`buf + 28`) spanning `4 + encoded_length` bytes; for assert the sequence is
guarded by `iszero cond`, for raise it is unconditional. -/
theorem reason_revert_structure (R : ReasonLowering) (ctx : Context)
    (msg : MsgAst) (msgER : ExprResult) (ctx1 : Context)
    (hs : is_unreachable_sentinel msg = false)
    (hm : R.lower_msg msg { ctx with constancy := .constant } = (.ok msgER, ctx1)) :
    ∃ buf encoded_length revert_seq,
      buf = IR.node "palloca" [IR.num ctx1.alloc_counter,
              IR.num (64 + (R.wrap_value_for_external_return msgER).typ.memory_bytes_required)]
      ∧ encoded_length = abi_encode (add_ofst buf 32)
            (R.wrap_value_for_external_return msgER)
            (32 + (R.wrap_value_for_external_return msgER).typ.memory_bytes_required)
      ∧ revert_seq = IR.node "with" [IR.sym "encoded_len", encoded_length,
          IR.node "seq"
            [IR.node "mstore" [buf, IR.num (method_id_int R.keccak4 "Error(string)")],
             IR.node "revert" [add_ofst buf 28, IR.node "add" [IR.num 4, IR.sym "encoded_len"]]]]
      ∧ (_assert_reason R ctx none msg).1 = .ok revert_seq
      ∧ (∀ t, (_assert_reason R ctx (some t) msg).1 =
          .ok (IR.node "if" [IR.node "iszero" [t], revert_seq])) := by
  refine ⟨_, _, _, rfl, rfl, rfl, ?_, ?_⟩
  · unfold _assert_reason
    rw [if_neg (by simp [hs]), hm]
    simp [new_internal_variable, get_type_for_exact_size, abi_encode, resolveCache,
      cachedVal, is_complex_ir, add_ofst]
    omega
  · intro t
    unfold _assert_reason
    rw [if_neg (by simp [hs]), hm]
    simp [new_internal_variable, get_type_for_exact_size, abi_encode, resolveCache,
      cachedVal, is_complex_ir, add_ofst]
    omega

/-- Concrete instantiation of `reason_revert_structure`: `raise "oops"` with a
message of 64 memory bytes reverts over `buf + 28` with length `4 + len`. -/
theorem reason_revert_structure_witness :
    let er : ExprResult := { ir := IR.sym "msgbuf", typ := { memory_bytes_required := 64 } }
    let R : ReasonLowering :=
      { lower_msg := fun _ c => (.ok er, c),
        wrap_value_for_external_return := fun e =>
          { e with typ := { e.typ with memory_bytes_required := e.typ.memory_bytes_required + 32 } },
        keccak4 := fun _ => 147028384 }
    (_assert_reason R {} none (.other 0)).1 = .ok
      (IR.node "with" [IR.sym "encoded_len",
        abi_encode (add_ofst (IR.node "palloca" [IR.num 0, IR.num 160]) 32)
          { ir := IR.sym "msgbuf", typ := { memory_bytes_required := 96 } } 128,
        IR.node "seq"
          [IR.node "mstore" [IR.node "palloca" [IR.num 0, IR.num 160], IR.num 147028384],
           IR.node "revert" [add_ofst (IR.node "palloca" [IR.num 0, IR.num 160]) 28,
             IR.node "add" [IR.num 4, IR.sym "encoded_len"]]]]) := by
  intro er R
  obtain ⟨buf, enc, rseq, hb, he, hr, hraise, _⟩ :=
    reason_revert_structure R {} (.other 0) er { constancy := .constant } rfl rfl
  rw [hraise, hr, he, hb]
  rfl

/-! ## Claim C9: the constancy flag is restored on every exit path -/

/-- Claim C9: for a non-sentinel message, the message expression is lowered
under the Context with the constancy flag forced to `Constant`; on the fault
path the flag is restored to its prior value and every other Context field
is exactly as the message lowering left it, and on the success path the flag
is likewise restored while the rest of the Context is as the message
lowering left it, advanced only by the one buffer request of the revert
sequence. -/
theorem reason_constancy_restored (R : ReasonLowering) (ctx : Context)
    (test : Option IR) (msg : MsgAst)
    (hs : is_unreachable_sentinel msg = false) :
    (∀ f ctx1,
      R.lower_msg msg { ctx with constancy := Constancy.constant } = (.error f, ctx1) →
        _assert_reason R ctx test msg =
          (.error f, { ctx1 with constancy := ctx.constancy }))
    ∧ (∀ er ctx1,
      R.lower_msg msg { ctx with constancy := Constancy.constant } = (.ok er, ctx1) →
        (_assert_reason R ctx test msg).2 =
          { ctx1 with constancy := ctx.constancy,
                      alloc_counter := ctx1.alloc_counter + 1 }) := by
  constructor
  · intro f ctx1 hm
    unfold _assert_reason
    rw [if_neg (by simp [hs]), hm]
  · intro er ctx1 hm
    unfold _assert_reason
    rw [if_neg (by simp [hs]), hm]
    cases test <;> rfl

/-- Concrete instantiation of `reason_constancy_restored`: a faulting message
lowering that also mutates the Context leaves the mutation in place but
restores the constancy flag. -/
theorem reason_constancy_restored_witness :
    let R : ReasonLowering :=
      { lower_msg := fun _ c =>
          (.error (.structureException "bad msg"), { c with fresh_counter := 9 }),
        wrap_value_for_external_return := id,
        keccak4 := fun _ => 0 }
    _assert_reason R { constancy := .mutableCtx } none (.other 0) =
      (.error (.structureException "bad msg"),
       { constancy := .mutableCtx, fresh_counter := 9 }) := by
  intro R
  exact (reason_constancy_restored R { constancy := .mutableCtx } none (.other 0) rfl).1
    (.structureException "bad msg") { constancy := .constant, fresh_counter := 9 } rfl

/-! ## Claims C4 and C5: the range-form loop -/

/-- Evaluating `end - clampOp(start, end)` (either direction-aware clamp op)
succeeds only when both endpoints evaluate with start not exceeding end, and
the result is their difference. -/
theorem eval_sub_clamp_node (env : List (String × Int)) (a b : IR) (op : String)
    (r : Int) (hop : op = "sclamp_le" ∨ op = "uclamp_le")
    (h : evalIR env (IR.node "sub" [b, IR.node op [a, b]]) = some r) :
    ∃ sv ev, evalIR env a = some sv ∧ evalIR env b = some ev ∧ sv ≤ ev ∧ r = ev - sv := by
  rcases hop with hop | hop <;> subst hop <;>
  · cases hcb : evalIR env b with
    | none => simp [evalIR, hcb] at h
    | some ev =>
      cases hca : evalIR env a with
      | none => simp [evalIR, hcb, hca] at h
      | some sv =>
        by_cases hle : sv ≤ ev
        · refine ⟨sv, ev, rfl, rfl, hle, ?_⟩
          simp [evalIR, hcb, hca, hle] at h
          omega
        · exfalso
          simp [evalIR, hcb, hca, hle] at h

/-- As `eval_sub_clamp_node`, through the `clamp_le` collaborator and the
cache-resolution wrapper around the round count. -/
theorem eval_rounds_nonneg (e startC : IR) (name : String) (sg : Bool)
    (env : List (String × Int)) (r : Int)
    (h : evalIR env (resolveCache name e
          (IR.node "sub" [cachedVal name e, clamp_le startC (cachedVal name e) sg])) = some r) :
    ∃ sv ev, sv ≤ ev ∧ r = ev - sv ∧ 0 ≤ r := by
  have hop : (if sg then "sclamp_le" else "uclamp_le") = "sclamp_le"
      ∨ (if sg then "sclamp_le" else "uclamp_le") = "uclamp_le" := by
    cases sg <;> simp
  by_cases hc : is_complex_ir e
  · rw [resolveCache, if_pos hc] at h
    rw [cachedVal, if_pos hc] at h
    rw [show (IR.node "with" [IR.sym name, e,
          IR.node "sub" [IR.sym name, clamp_le startC (IR.sym name) sg]]) =
        IR.node "with" [IR.sym name, e,
          IR.node "sub" [IR.sym name, IR.node (if sg then "sclamp_le" else "uclamp_le")
            [startC, IR.sym name]]] from rfl] at h
    cases hv : evalIR env e with
    | none => simp [evalIR, hv] at h
    | some x =>
      rw [show evalIR env (IR.node "with" [IR.sym name, e,
            IR.node "sub" [IR.sym name, IR.node (if sg then "sclamp_le" else "uclamp_le")
              [startC, IR.sym name]]]) =
          (evalIR env e).bind (fun x2 => evalIR ((name, x2) :: env)
            (IR.node "sub" [IR.sym name, IR.node (if sg then "sclamp_le" else "uclamp_le")
              [startC, IR.sym name]])) from by simp [evalIR], hv] at h
      obtain ⟨sv, ev, _, _, hle, hr⟩ :=
        eval_sub_clamp_node ((name, x) :: env) startC (IR.sym name) _ r hop (by simpa using h)
      exact ⟨sv, ev, hle, hr, by omega⟩
  · rw [resolveCache, if_neg hc] at h
    rw [cachedVal, if_neg hc] at h
    obtain ⟨sv, ev, _, _, hle, hr⟩ :=
      eval_sub_clamp_node env startC e _ r hop (by simpa [clamp_le] using h)
    exact ⟨sv, ev, hle, hr, by omega⟩

/-- Claim C4: with an explicit `bound` of compile-time value `k ≥ 1`, the
range loop lowers to a `repeat` whose start operand is the cached start,
whose declared bound is exactly `k`, and whose run-time round count is
`end - clamp_le(start, end)` (direction-aware in the signedness of the loop
variable type); whenever the round count evaluates at run time, the
evaluated clamped start does not exceed the evaluated end and the count is
their difference, hence never negative. -/
theorem range_loop_with_bound (ctx : Context) (ttype : VyType) (s e b : IR)
    (varname : String) (body : IR) (k : Int)
    (hk : int_value b = some k) (hk1 : 1 ≤ k) :
    let startC := cachedVal "start" s
    let endC := cachedVal "end" e
    let rounds := resolveCache "end" e
        (IR.node "sub" [endC, clamp_le startC endC ttype.is_signed])
    let i := IR.sym ("range_ix" ++ toString ctx.fresh_counter)
    let loop_body := IR.node "seq"
        [IR.node "mstore" [IR.node "named_var" [IR.sym varname], i], body]
    _parse_For_range ctx ttype [s, e] (some b) varname body =
      .ok (resolveCache "start" s
             (IR.node "repeat" [i, startC, rounds, IR.num k, loop_body]),
           { ctx with fresh_counter := ctx.fresh_counter + 1 })
    ∧ (∀ env r, evalIR env rounds = some r →
        ∃ sv ev, sv ≤ ev ∧ r = ev - sv ∧ 0 ≤ r) := by
  refine ⟨?_, ?_⟩
  · unfold _parse_For_range
    simp [bind, Except.bind, pure, Except.pure, fresh_varname, new_variable, hk,
      show ¬ (k < 1) from by omega]
  · intro env r h
    exact eval_rounds_nonneg e (cachedVal "start" s) "end" ttype.is_signed env r h

/-- Concrete instantiation of `range_loop_with_bound`: `range(n, m,
bound=10)` with run-time endpoints yields declared bound exactly 10 and a
round count that never evaluates to a negative value. -/
theorem range_loop_with_bound_witness :
    _parse_For_range {} {} [IR.sym "n", IR.sym "m"] (some (IR.num 10)) "i" (IR.sym "body") =
      .ok (IR.node "repeat"
            [IR.sym "range_ix0", IR.sym "n",
             IR.node "sub" [IR.sym "m", IR.node "uclamp_le" [IR.sym "n", IR.sym "m"]],
             IR.num 10,
             IR.node "seq" [IR.node "mstore" [IR.node "named_var" [IR.sym "i"], IR.sym "range_ix0"],
               IR.sym "body"]],
           { fresh_counter := 1 }) := by
  have h := (range_loop_with_bound {} {} (IR.sym "n") (IR.sym "m") (IR.num 10) "i"
    (IR.sym "body") 10 rfl (by omega)).1
  simpa [cachedVal, resolveCache, is_complex_ir, clamp_le] using h

/-- Claim C5: without `bound`, both endpoints must be compile-time
constants; with literal endpoints the repeat's round count and declared
bound are both the compile-time value `end - start` (when at least 1), a
value below 1 is the internal invariant fault, a non-literal endpoint
faults, and the one-argument form `range(end)` is `range(0, end)`. -/
theorem range_loop_exact (ctx : Context) (ttype : VyType)
    (varname : String) (body : IR) (sv ev : Int) :
    let i := IR.sym ("range_ix" ++ toString ctx.fresh_counter)
    let loop_body := IR.node "seq"
        [IR.node "mstore" [IR.node "named_var" [IR.sym varname], i], body]
    (1 ≤ ev - sv →
      _parse_For_range ctx ttype [IR.num sv, IR.num ev] none varname body =
        .ok (IR.node "repeat"
              [i, IR.num sv, IR.num (ev - sv), IR.num (ev - sv), loop_body],
             { ctx with fresh_counter := ctx.fresh_counter + 1 }))
    ∧ (ev - sv < 1 →
      _parse_For_range ctx ttype [IR.num sv, IR.num ev] none varname body =
        .error (.typeCheckFailure "unreachable: unchecked 0 bound"))
    ∧ (∀ s e : IR, int_value e = none →
        _parse_For_range ctx ttype [s, e] none varname body =
          .error (.codegenPanic "int_value of non-literal endpoint"))
    ∧ (∀ (e : IR) (bound : Option IR),
        _parse_For_range ctx ttype [e] bound varname body =
          _parse_For_range ctx ttype [IR.num 0, e] bound varname body) := by
  refine ⟨?_, ?_, ?_, ?_⟩
  · intro hge
    unfold _parse_For_range
    simp [bind, Except.bind, pure, Except.pure, int_value, cachedVal, is_complex_ir,
      resolveCache, fresh_varname, new_variable, show ¬ (ev - sv < 1) from by omega]
  · intro hlt
    unfold _parse_For_range
    simp [bind, Except.bind, pure, Except.pure, int_value, cachedVal, is_complex_ir,
      resolveCache, hlt]
  · intro s e hnone
    unfold _parse_For_range
    simp [bind, Except.bind, pure, Except.pure, hnone]
  · intro e bound
    rfl

/-- Concrete instantiation of `range_loop_exact`: `for i in range(5)` yields
round count 5 and declared bound 5. -/
theorem range_loop_exact_witness :
    _parse_For_range {} {} [IR.num 5] none "i" (IR.sym "body") =
      .ok (IR.node "repeat"
            [IR.sym "range_ix0", IR.num 0, IR.num 5, IR.num 5,
             IR.node "seq" [IR.node "mstore" [IR.node "named_var" [IR.sym "i"], IR.sym "range_ix0"],
               IR.sym "body"]],
           { fresh_counter := 1 }) := by
  rw [(range_loop_exact {} {} "i" (IR.sym "body") 0 5).2.2.2 (IR.num 5) none]
  exact (range_loop_exact {} {} "i" (IR.sym "body") 0 5).1 (by omega)

/-! ## Claim C6: round count and declared bound of the sequence-form loop -/

/-- Claim C6: a sequence-form loop lowers to a `repeat` whose declared
assembler-level bound is always the static capacity of the iterated type,
and whose run-time round count is the stored-live-length read for a dynamic
array and that same static capacity (as a compile-time literal) otherwise. -/
theorem for_list_counts (ctx : Context) (ttype : VyType) (iter : ExprResult)
    (varname : String) (body : IR) :
    let iterIR := if iter.is_pointer then iter.ir
      else IR.node "palloca" [IR.num ctx.alloc_counter, IR.num iter.typ.memory_bytes_required]
    let iterC := cachedVal "list_iter" iterIR
    let i := IR.sym ("for_list_ix" ++ toString ctx.fresh_counter)
    let body2 := IR.node "seq"
      [make_setter (IR.node "named_var" [IR.sym varname]) (get_element_ptr iterC i), body]
    seq_last_repeat (_parse_For_list ctx ttype iter varname body).1 =
      some [i, IR.num 0,
        if iter.typ.is_darray then get_dyn_array_count iterC else IR.num iter.typ.count,
        IR.num iter.typ.count, body2] := by
  by_cases hp : iter.is_pointer
  · by_cases hc : is_complex_ir iter.ir
    · simp [_parse_For_list, new_variable, fresh_varname, new_internal_variable, hp, hc,
        seq_last_repeat, strip_withs, resolveCache, cachedVal, List.getLast?]
    · simp [_parse_For_list, new_variable, fresh_varname, new_internal_variable, hp, hc,
        seq_last_repeat, strip_withs, resolveCache, cachedVal, List.getLast?]
  · simp [_parse_For_list, new_variable, fresh_varname, new_internal_variable, hp,
      seq_last_repeat, strip_withs, resolveCache, cachedVal, is_complex_ir, List.getLast?]

/-! ## Claim C7: termination judgement and implicit bare return -/

/-- The recursion of `_is_terminated` only consults the final statement. -/
theorem is_terminated_eq_last : ∀ (l : List VyStmt) (last : VyStmt),
    l.getLast? = some last → _is_terminated l = last_stmt_terminated last
  | [], _, h => by simp at h
  | [s], last, h => by
      simp only [List.getLast?_singleton, Option.some.injEq] at h
      subst h
      rfl
  | a :: b :: t, last, h => by
      have h2 : (b :: t).getLast? = some last := by
        simpa only [List.getLast?_cons_cons] using h
      rw [show _is_terminated (a :: b :: t) = _is_terminated (b :: t) from rfl,
          is_terminated_eq_last (b :: t) last h2]

/-- Claim C7: a statement sequence is judged terminated exactly when its
final statement is a terminus, or is an `if` with both branches present and
both branches recursively terminated; and `parse_body`, when asked to
ensure termination, appends exactly one implicit bare-return lowering iff
the enclosing function declares no return value and the sequence is not
terminated, appending nothing (beyond the unconditional zerovalent no-op)
otherwise. -/
theorem body_termination (lower : VyStmt → IR) (code : List VyStmt)
    (last : VyStmt) (hlast : code.getLast? = some last) :
    (_is_terminated code = true ↔
      (is_terminus last = true ∨
        ∃ b o, last = VyStmt.ifStmt b o ∧ o ≠ [] ∧
          _is_terminated b = true ∧ _is_terminated o = true))
    ∧ (∀ rt : Bool,
        parse_body lower rt code true =
          IR.node "seq" (code.map lower ++
            (if rt && !(_is_terminated code) then [lower .ret] else []) ++
            [IR.sym "pass"]))
    ∧ (∀ rt : Bool,
        parse_body lower rt code false =
          IR.node "seq" (code.map lower ++ [IR.sym "pass"])) := by
  refine ⟨?_, ?_, ?_⟩
  · rw [is_terminated_eq_last code last hlast]
    cases last with
    | ret => simp [last_stmt_terminated, is_terminus]
    | plain => simp [last_stmt_terminated, is_terminus]
    | ifStmt b o =>
      constructor
      · intro h
        simp only [last_stmt_terminated, Bool.and_eq_true] at h
        obtain ⟨⟨hne, hb⟩, ho⟩ := h
        refine Or.inr ⟨b, o, rfl, ?_, hb, ho⟩
        intro he
        subst he
        simp at hne
      · intro h
        rcases h with h | ⟨b2, o2, heq, hne, hb, ho⟩
        · simp [is_terminus] at h
        · cases heq
          simp only [last_stmt_terminated, Bool.and_eq_true]
          refine ⟨⟨?_, hb⟩, ho⟩
          simp [hne]
  · intro rt
    cases hterm : _is_terminated code <;> cases rt <;>
      simp [parse_body, hterm, List.append_assoc]
  · intro rt
    simp [parse_body]

/-- Concrete instantiation of `body_termination`: a void-returning body
ending in a plain statement gets exactly one appended bare return; one
ending in `return` gets none; an `if/else` whose branches both end in
`return` counts as terminated and gets none. -/
theorem body_termination_witness :
    parse_body (fun _ => IR.sym "stmt") true [VyStmt.plain] true =
      IR.node "seq" [IR.sym "stmt", IR.sym "stmt", IR.sym "pass"]
    ∧ parse_body (fun _ => IR.sym "stmt") true [VyStmt.ret] true =
      IR.node "seq" [IR.sym "stmt", IR.sym "pass"]
    ∧ _is_terminated [VyStmt.ifStmt [VyStmt.ret] [VyStmt.ret]] = true := by
  refine ⟨?_, ?_, ?_⟩
  · rw [(body_termination (fun _ => IR.sym "stmt") [VyStmt.plain] VyStmt.plain rfl).2.1 true]
    rfl
  · rw [(body_termination (fun _ => IR.sym "stmt") [VyStmt.ret] VyStmt.ret rfl).2.1 true]
    rfl
  · exact (body_termination (fun _ => IR.sym "stmt")
      [VyStmt.ifStmt [VyStmt.ret] [VyStmt.ret]] (VyStmt.ifStmt [VyStmt.ret] [VyStmt.ret])
      rfl).1.mpr (Or.inr ⟨[VyStmt.ret], [VyStmt.ret], rfl, by simp, rfl, rfl⟩)

end VyperStmt
